import Mathlib

/-!
Shallow embedding of the clone-task state machine of `src/daemon/clone-mgr.c`
(seafile daemon clone manager).

The embedding models one clone task (events for the same task are serialized
by the single-threaded event loop; events for different tasks touch disjoint
data, per the design).  External collaborators (the transfer engine, the peer
layer, the repository store, the job executor, the filesystem) are modelled as
oracle parameters of the corresponding events: the handler code is translated
from the C source, while the collaborator results it branches on are free
inputs.

The `Task` record carries, besides the fields of the C `CloneTask` struct
that the handlers read or write (`state`, `error`, `tx_id`, `root_id`,
`passwd`), the presence of the task's durable row (`inDb`, written by
`save_task_to_db` / `remove_task_from_db`), the kind of in-flight background
job (`pending`, which in C is implicit in which completion callback was
installed), and two history flags used only to state properties
(`enteredFetch`: the task has entered the FETCH state; `repoWorktreeSet`:
`seaf_repo_manager_set_repo_worktree` has been invoked for this task).
-/

set_option autoImplicit false

namespace CloneMgr

/-- Clone task states, from the `state_str` table of clone-mgr.c. -/
inductive St where
  | init
  | connect
  | index
  | fetch
  | checkout
  | merge
  | done
  | error
  | cancelPending
  | canceled
deriving DecidableEq, Repr

/-- Clone task error kinds, from the `error_str` table of clone-mgr.c. -/
inductive Err where
  | ok
  | connect
  | index
  | fetch
  | password
  | checkout
  | merge
  | internal
deriving DecidableEq, Repr

/-- Which background job (completion callback) is in flight for the task. -/
inductive Pending where
  | pnone
  | pIndex
  | pFetch
  | pCheckout
  | pMerge
deriving DecidableEq, Repr

/-- The clone task, plus the durable-row bit and job bookkeeping (see the
module comment). -/
structure Task where
  state : St
  error : Err := .ok
  txId : Option String := none
  rootId : String := ""
  passwd : Option String := none
  inDb : Bool := false
  pending : Pending := .pnone
  enteredFetch : Bool := false
  repoWorktreeSet : Bool := false
  txCancelRequested : Bool := false
deriving DecidableEq, Repr

/-- A state is terminal when it is DONE, ERROR or CANCELED. -/
def isTerminal : St → Bool
  | .done => true
  | .error => true
  | .canceled => true
  | _ => false

/-- Embedding of `transition_state`: entering DONE, ERROR or CANCELED removes
the task row from the clone db, then the in-memory state is set. -/
def transition_state (t : Task) (ns : St) : Task :=
  if ns = St.done ∨ ns = St.error ∨ ns = St.canceled then
    { t with state := ns, inDb := false }
  else
    { t with state := ns }

/-- Embedding of `transition_to_error`: removes the db row, sets the state to
ERROR and records the error kind. -/
def transition_to_error (t : Task) (e : Err) : Task :=
  { t with state := St.error, error := e, inDb := false }

/-- Embedding of `add_transfer_task`: `seaf_transfer_manager_add_download`
either returns a transfer id (stored in `tx_id`) or fails; `dl` is its
result.  Returns the updated task and whether the call succeeded. -/
def add_transfer_task (dl : Option String) (t : Task) : Task × Bool :=
  ({ t with txId := dl }, dl.isSome)

/-- Embedding of the FETCH-entry half of `start_index_or_transfer` and of the
success tail of `index_files_done`: the task enters FETCH with the transfer
in flight. -/
def enter_fetch (t : Task) : Task :=
  { transition_state t St.fetch with pending := Pending.pFetch, enteredFetch := true }

/-- Embedding of `start_index_or_transfer`.  `wtNonEmpty` is the result of
`is_non_empty_directory (task->worktree)`; `dl` the transfer-manager result. -/
def start_index_or_transfer (wtNonEmpty : Bool) (dl : Option String) (t : Task) : Task :=
  if wtNonEmpty = true then
    { transition_state t St.index with pending := Pending.pIndex }
  else
    let p := add_transfer_task dl t
    if p.2 = true then enter_fetch p.1
    else transition_to_error p.1 Err.fetch

/-- Embedding of `index_files_done`, the completion of `index_files_job`.
`ok` is `aux->success`; `newRoot` the root hash the job wrote into
`task->root_id`; `dl` the result of the `add_transfer_task` call made on the
success path. -/
def index_files_done (ok : Bool) (newRoot : String) (dl : Option String) (t0 : Task) : Task :=
  let t : Task := { t0 with pending := Pending.pnone,
                            rootId := if ok = true then newRoot else t0.rootId }
  if ok = false then transition_to_error t Err.index
  else if t.state = St.cancelPending then transition_state t St.canceled
  else
    let p := add_transfer_task dl t
    if p.2 = false then transition_to_error p.1 Err.fetch
    else enter_fetch p.1

/-- External repository facts consumed by `start_checkout`: whether the repo
is encrypted, its `enc_version`, the results of `seaf_repo_verify_passwd`
(`verifyOk` means it returned 0) and `seaf_repo_manager_set_repo_passwd`. -/
structure RepoInfo where
  encrypted : Bool
  encVersion : Nat
  verifyOk : Bool
  setPasswdOk : Bool
deriving DecidableEq, Repr

/-- Embedding of the tail of `start_checkout`: schedule a plain checkout when
the worktree is empty, otherwise a merge job. -/
def start_checkout_sched (wtNonEmpty : Bool) (t : Task) : Task :=
  if wtNonEmpty = false then
    { transition_state t St.checkout with pending := Pending.pCheckout }
  else
    { transition_state t St.merge with pending := Pending.pMerge }

/-- Embedding of `start_checkout`.  For an encrypted repo with a supplied
passphrase, the passphrase is verified only when `enc_version >= 1`; a failed
verification yields ERROR(PASSWORD) and a failed `set_repo_passwd` yields
ERROR(INTERNAL).  An encrypted repo without a passphrase yields
ERROR(PASSWORD).  Otherwise a checkout or merge is scheduled. -/
def start_checkout (r : RepoInfo) (wtNonEmpty : Bool) (t : Task) : Task :=
  if r.encrypted = true ∧ t.passwd ≠ none then
    if 1 ≤ r.encVersion ∧ r.verifyOk = false then
      transition_to_error t Err.password
    else if r.setPasswdOk = false then
      transition_to_error t Err.internal
    else
      start_checkout_sched wtNonEmpty t
  else if r.encrypted = true then
    transition_to_error t Err.password
  else
    start_checkout_sched wtNonEmpty t

/-- Outcome of the transfer task observed by `on_repo_fetched`: the transfer
ended canceled, ended in error, or delivered the repository (`repoFound` is
whether `seaf_repo_manager_get_repo` finds it afterwards; `r` and
`wtNonEmpty` feed the ensuing `start_checkout`). -/
inductive TxResult where
  | canceled
  | errored
  | fetched (repoFound : Bool) (r : RepoInfo) (wtNonEmpty : Bool)
deriving DecidableEq, Repr

/-- Embedding of `on_repo_fetched` (restricted to this clone task). -/
def on_repo_fetched (res : TxResult) (t0 : Task) : Task :=
  let t : Task := { t0 with pending := Pending.pnone }
  match res with
  | .canceled => transition_state t St.canceled
  | .errored => transition_to_error t Err.fetch
  | .fetched found r wtNE =>
    if found = false then transition_to_error t Err.internal
    else start_checkout r wtNE t

/-- External results consumed by `merge_job`: the outcome of the late
`seaf_repo_index_worktree_files` call (run only when `root_id` is still
zero-valued) and the hash it produces, the branch and commit lookups, the
`check_fast_forward` answer, and the outcomes of `fast_forward_checkout`
and `real_merge`. -/
structure MergeEnv where
  indexOk : Bool
  newRoot : String
  branchFound : Bool
  headFound : Bool
  fastForward : Bool
  ffOk : Bool
  mergeOk : Bool
deriving DecidableEq, Repr

/-- Result of `merge_job`: the `aux->success` flag, the final contents of
`task->root_id`, and whether `seaf_repo_set_head` was reached. -/
structure MergeRes where
  success : Bool
  rootId : String
  headSet : Bool
deriving DecidableEq, Repr

/-- Embedding of `merge_job` (the background half).  When `task->root_id` is
zero-valued the worktree is indexed first; a failure there returns with
`success` still false.  Then the local branch and its head commit are looked
up, and either a fast-forward checkout or a real three-way merge runs; on
success the repo head is set. -/
def merge_job (env : MergeEnv) (t : Task) : MergeRes :=
  if t.rootId = "" ∧ env.indexOk = false then
    { success := false, rootId := t.rootId, headSet := false }
  else
    let root := if t.rootId = "" then env.newRoot else t.rootId
    if env.branchFound = false then { success := false, rootId := root, headSet := false }
    else if env.headFound = false then { success := false, rootId := root, headSet := false }
    else if env.fastForward = true then
      if env.ffOk = false then { success := false, rootId := root, headSet := false }
      else { success := true, rootId := root, headSet := true }
    else if env.mergeOk = false then { success := false, rootId := root, headSet := false }
    else { success := true, rootId := root, headSet := true }

/-- Embedding of `merge_job_done`.  On failure the task errs with
ERROR(MERGE).  On success `seaf_repo_manager_set_repo_worktree` runs first,
then CANCEL_PENDING finalizes to CANCELED and MERGE advances to DONE. -/
def merge_job_done (env : MergeEnv) (t0 : Task) : Task :=
  let r := merge_job env t0
  let t : Task := { t0 with pending := Pending.pnone, rootId := r.rootId }
  if r.success = false then transition_to_error t Err.merge
  else
    let t2 : Task := { t with repoWorktreeSet := true }
    if t2.state = St.cancelPending then transition_state t2 St.canceled
    else if t2.state = St.merge then transition_state t2 St.done
    else t2

/-- Embedding of `on_checkout_done` (restricted to this clone task).  `ok`
is `ctask->success`. -/
def on_checkout_done (ok : Bool) (t0 : Task) : Task :=
  let t : Task := { t0 with pending := Pending.pnone }
  if ok = false then transition_to_error t Err.checkout
  else if t.state = St.cancelPending then transition_state t St.canceled
  else if t.state = St.checkout then transition_state t St.done
  else t

/-- Embedding of `seaf_clone_manager_cancel_task` for a task present in the
registry.  Returns the updated task and the C return value (0 or -1).  For a
FETCH task `seaf_transfer_manager_cancel_task` is invoked first (recorded in
`txCancelRequested`). -/
def cancel_task (t : Task) : Task × Int :=
  match t.state with
  | .init => (transition_state t St.canceled, 0)
  | .connect => (transition_state t St.canceled, 0)
  | .fetch => (transition_state { t with txCancelRequested := true } St.cancelPending, 0)
  | .index => (transition_state t St.cancelPending, 0)
  | .checkout => (transition_state t St.cancelPending, 0)
  | .merge => (transition_state t St.cancelPending, 0)
  | .cancelPending => (t, 0)
  | .done => (t, -1)
  | .error => (t, -1)
  | .canceled => (t, -1)

/-- Asynchronous events that can hit a task after admission or recovery.
`poll` is the 5-second connect pulse (`check_connect_pulse` together with
`continue_task_when_peer_connected`); the other four are the completion
callbacks.  Each event carries the oracle inputs its handler consumes. -/
inductive Ev where
  | cancel
  | poll (connected wtNonEmpty : Bool) (dl : Option String)
  | indexDone (ok : Bool) (newRoot : String) (dl : Option String)
  | fetchDone (res : TxResult)
  | checkoutDone (ok : Bool)
  | mergeDone (env : MergeEnv)

/-- One step of the event loop on a single task: an event either fires its
handler or does not apply.  Completion events are enabled exactly when the
corresponding job is in flight; the connect pulse only advances CONNECT
tasks whose peer is connected; cancellation is always accepted by the
manager (its return code is modelled in `cancel_task`). -/
def step (t : Task) (e : Ev) : Option Task :=
  match e with
  | .cancel => some (cancel_task t).1
  | .poll connected wtNE dl =>
    if t.state = St.connect ∧ connected = true then
      some (start_index_or_transfer wtNE dl t)
    else some t
  | .indexDone ok nr dl =>
    if t.pending = Pending.pIndex then some (index_files_done ok nr dl t) else none
  | .fetchDone res =>
    if t.pending = Pending.pFetch then some (on_repo_fetched res t) else none
  | .checkoutDone ok =>
    if t.pending = Pending.pCheckout then some (on_checkout_done ok t) else none
  | .mergeDone env =>
    if t.pending = Pending.pMerge then some (merge_job_done env t) else none

/-! ## Worktree placer and admission -/

/-- Result of `g_lstat` / `S_ISDIR` on a path: the path does not exist, it
exists but is not a directory (or stat fails otherwise), or it is a
directory. -/
inductive PathStat where
  | notExist
  | notDir
  | isDir
deriving DecidableEq, Repr

/-- Embedding of the leading loop of `make_worktree` that strips trailing
path separators from the candidate path. -/
def stripSeps (s : String) : String :=
  String.mk ((s.data.reverse.dropWhile (fun c => c = '/' ∨ c = '\\')).reverse)

/-- Embedding of the body of `try_worktree`: starting from suffix counter
`cnt`, return the first `wt-N` that does not exist, giving up when the
counter would reach `2^32 - 1`.  `fuel` bounds the recursion and is chosen
large enough that the counter check fires first. -/
def try_worktree_from (fs : String → PathStat) (wt : String) : Nat → Nat → Option String
  | _, 0 => none
  | cnt, fuel + 1 =>
    let tmp := wt ++ "-" ++ toString cnt
    if fs tmp = PathStat.notExist then some tmp
    else if cnt + 1 = 4294967295 then none
    else try_worktree_from fs wt (cnt + 1) fuel

/-- Embedding of `try_worktree`: the counter starts at 1. -/
def try_worktree (fs : String → PathStat) (wt : String) : Option String :=
  try_worktree_from fs wt 1 4294967295

/-- Admission and worktree-placement failures of clone-mgr.c, by the GError
message set (or, for `tryLimit` and `mkdirFailed`, the NULL return without a
message). -/
inductive AddErr where
  | repoExists
  | taskInProgress
  | invalidDirName
  | invalidDir
  | alreadyInSync
  | tryLimit
  | mkdirFailed
  | dbFailed
deriving DecidableEq, Repr

/-- Embedding of `make_worktree`.  `fs` is the filesystem stat oracle,
`wtOf` the `is_worktree_of_repo` oracle (over known repos and non-terminal
clone tasks), `mkdirOk` the result of `g_mkdir_with_parents`.  Returns the
chosen path together with whether a directory was created. -/
def make_worktree (fs : String → PathStat) (wtOf : String → Bool) (mkdirOk : Bool)
    (dryRun : Bool) (worktree : String) : Except AddErr (String × Bool) :=
  let wt := stripSeps worktree
  match fs wt with
  | .notExist =>
    if dryRun = true then Except.ok (wt, false)
    else if mkdirOk = true then Except.ok (wt, true)
    else Except.error AddErr.mkdirFailed
  | .notDir =>
    if dryRun = false then Except.error AddErr.invalidDir
    else
      match try_worktree fs wt with
      | some r => Except.ok (r, false)
      | none => Except.error AddErr.tryLimit
  | .isDir =>
    if wtOf wt = true then
      if dryRun = false then Except.error AddErr.alreadyInSync
      else
        match try_worktree fs wt with
        | some r => Except.ok (r, false)
        | none => Except.error AddErr.tryLimit
    else Except.ok (wt, false)

/-- Embedding of `g_build_filename` for one component. -/
def g_build_filename (parent name : String) : String :=
  parent ++ "/" ++ name

/-- Embedding of `seaf_clone_manager_gen_default_worktree`: build
`parent/repo_name`, run `make_worktree` in dry-run mode, and fall back to the
unmodified candidate when it returns NULL.  The second component records
whether a directory was created. -/
def gen_default_worktree (fs : String → PathStat) (wtOf : String → Bool)
    (worktreeParent repoName : String) : String × Bool :=
  let wt := g_build_filename worktreeParent repoName
  match make_worktree fs wtOf true true wt with
  | .error _ => (wt, false)
  | .ok p => p

/-- Embedding of `g_path_get_basename` (Unix separators): trailing slashes
are stripped and the last component is returned, with the conventional
results for the empty string and for all-slash strings. -/
def path_get_basename (s : String) : String :=
  if s.data = [] then "."
  else
    let r := s.data.reverse.dropWhile (fun c => c = '/')
    if r = [] then "/"
    else String.mk ((r.takeWhile (fun c => c ≠ '/')).reverse)

/-- Embedding of `worktree_repo_name_matches`: the basename must be at least
as long as `repo_name` and agree with it on the first `strlen(repo_name)`
bytes, i.e. `repo_name` must be a prefix of the basename. -/
def worktree_repo_name_matches (worktree repoName : String) : Bool :=
  let base := path_get_basename worktree
  if base.length < repoName.length then false
  else List.isPrefixOf repoName.data base.data

/-- External facts consumed by `seaf_clone_manager_add_task`: the repo
lookup (`repoExists` / `repoHead`), the duplicate-task check, the worktree
placer oracles, the db write outcome, and the oracles of the dispatch that
follows admission. -/
structure AddEnv where
  repoExists : Bool
  repoHead : Bool
  dupTask : Bool
  fs : String → PathStat
  wtOf : String → Bool
  mkdirOk : Bool
  dbOk : Bool
  repoInfo : RepoInfo
  wtNonEmpty : Bool
  relayConnected : Bool
  dl : Option String

/-- Result of `seaf_clone_manager_add_task`: the outcome (the accepted task,
already advanced by the post-admission dispatch, or the admission error),
whether a worktree directory was created, and whether a durable row was
written. -/
structure AddResult where
  outcome : Except AddErr Task
  dirCreated : Bool
  dbWritten : Bool
deriving Repr

/-- The dispatch `seaf_clone_manager_add_task` performs after the row is
saved: checkout/merge when the repo was fetched but has no head, CONNECT
when the relay is not connected, otherwise index-or-fetch.  The fresh task
starts in INIT with its durable row present. -/
def post_add_dispatch (env : AddEnv) (passwd : Option String) : Task :=
  let t0 : Task := { state := St.init, passwd := passwd, inDb := true }
  if env.repoExists = true ∧ env.repoHead = false then
    start_checkout env.repoInfo env.wtNonEmpty t0
  else if env.relayConnected = false then
    transition_state t0 St.connect
  else
    start_index_or_transfer env.wtNonEmpty env.dl t0

/-- Embedding of `seaf_clone_manager_add_task`: reject when the repo already
exists with a head, when a non-terminal task for the repo exists, or when the
worktree basename does not pass the name check; then commit the worktree,
persist the row, and run the post-admission dispatch. -/
def add_task (env : AddEnv) (worktreeIn repoName : String)
    (passwd : Option String) : AddResult :=
  if env.repoExists = true ∧ env.repoHead = true then
    { outcome := Except.error AddErr.repoExists, dirCreated := false, dbWritten := false }
  else if env.dupTask = true then
    { outcome := Except.error AddErr.taskInProgress, dirCreated := false, dbWritten := false }
  else if worktree_repo_name_matches worktreeIn repoName = false then
    { outcome := Except.error AddErr.invalidDirName, dirCreated := false, dbWritten := false }
  else
    match make_worktree env.fs env.wtOf env.mkdirOk false worktreeIn with
    | .error e =>
      { outcome := Except.error e, dirCreated := false, dbWritten := false }
    | .ok p =>
      if env.dbOk = false then
        { outcome := Except.error AddErr.dbFailed, dirCreated := p.2, dbWritten := false }
      else
        { outcome := Except.ok (post_add_dispatch env passwd), dirCreated := p.2,
          dbWritten := true }

/-! ## Startup recovery -/

/-- External facts consumed by `restart_task` for one recovered row: the
repo lookup, the peer connectivity, and the oracles of the dispatch. -/
structure RecoverEnv where
  repoExists : Bool
  repoHead : Bool
  repoInfo : RepoInfo
  wtNonEmpty : Bool
  relayConnected : Bool
  dl : Option String
deriving DecidableEq, Repr

/-- Embedding of `restart_task` for one row of the CloneTasks table: the
task is rebuilt in INIT with its durable row present, then dispatched: DONE
when the repo already has a head, checkout/merge when the repo exists
without a head, otherwise CONNECT or index-or-fetch. -/
def restart_task (env : RecoverEnv) (passwd : Option String) : Task :=
  let t : Task := { state := St.init, passwd := passwd, inDb := true }
  if env.repoExists = true then
    if env.repoHead = true then transition_state t St.done
    else start_checkout env.repoInfo env.wtNonEmpty t
  else if env.relayConnected = false then
    transition_state t St.connect
  else
    start_index_or_transfer env.wtNonEmpty env.dl t

/-! ## Reachability -/

/-- Task states reachable by the clone manager: created by admission or by
startup recovery, then driven by any sequence of events. -/
inductive Reach : Task → Prop where
  | added (env : AddEnv) (wt nm : String) (p : Option String) (t : Task)
      (h : (add_task env wt nm p).outcome = Except.ok t) : Reach t
  | recover (env : RecoverEnv) (p : Option String) : Reach (restart_task env p)
  | evt (t : Task) (e : Ev) (t2 : Task) (h1 : Reach t) (h2 : step t e = some t2) : Reach t2

/-! ## Well-formedness invariant of reachable tasks -/

/-- State/job compatibility: each pipeline stage has exactly its own job in
flight, CANCEL_PENDING keeps the job of the stage it was entered from, and
the remaining states have no job in flight. -/
def pendingMatches (t : Task) : Prop :=
  match t.state with
  | .init => t.pending = Pending.pnone
  | .connect => t.pending = Pending.pnone
  | .index => t.pending = Pending.pIndex
  | .fetch => t.pending = Pending.pFetch
  | .checkout => t.pending = Pending.pCheckout
  | .merge => t.pending = Pending.pMerge
  | .cancelPending => t.pending ≠ Pending.pnone
  | .done => t.pending = Pending.pnone
  | .error => t.pending = Pending.pnone
  | .canceled => t.pending = Pending.pnone

/-- Invariant satisfied by every reachable task: the durable row exists iff
the state is non-terminal; the in-flight job matches the state; `tx_id` is
set iff the task has entered FETCH; before FETCH is first entered (INIT,
CONNECT, INDEX) `tx_id` is unset; and in FETCH `tx_id` is set. -/
def WF (t : Task) : Prop :=
  (t.inDb = !isTerminal t.state) ∧
  pendingMatches t ∧
  (t.txId.isSome = t.enteredFetch) ∧
  ((t.state = St.init ∨ t.state = St.connect ∨ t.state = St.index) →
    t.txId = none ∧ t.enteredFetch = false) ∧
  (t.state = St.fetch → t.txId.isSome = true)

theorem wf_start_index_or_transfer (w : Bool) (dl : Option String) (t : Task)
    (h1 : t.inDb = true) (h2 : t.pending = Pending.pnone)
    (h3 : t.txId = none) (h4 : t.enteredFetch = false) :
    WF (start_index_or_transfer w dl t) := by
  unfold start_index_or_transfer enter_fetch add_transfer_task transition_state
    transition_to_error WF pendingMatches isTerminal
  cases w <;> cases dl <;> simp_all

theorem wf_start_checkout (r : RepoInfo) (w : Bool) (t : Task)
    (h1 : t.inDb = true) (h2 : t.pending = Pending.pnone)
    (h3 : t.txId.isSome = t.enteredFetch) :
    WF (start_checkout r w t) := by
  unfold start_checkout start_checkout_sched transition_state transition_to_error
    WF pendingMatches isTerminal
  split_ifs <;> simp_all

theorem wf_restart (env : RecoverEnv) (p : Option String) : WF (restart_task env p) := by
  unfold restart_task
  split_ifs with h1 h2 h3
  · simp [transition_state, WF, pendingMatches, isTerminal]
  · exact wf_start_checkout _ _ _ rfl rfl rfl
  · simp [transition_state, WF, pendingMatches, isTerminal]
  · exact wf_start_index_or_transfer _ _ _ rfl rfl rfl rfl

theorem wf_post_add_dispatch (env : AddEnv) (p : Option String) :
    WF (post_add_dispatch env p) := by
  unfold post_add_dispatch
  split_ifs with d1 d2
  · exact wf_start_checkout _ _ _ rfl rfl rfl
  · unfold transition_state WF pendingMatches isTerminal
    simp
  · exact wf_start_index_or_transfer _ _ _ rfl rfl rfl rfl

theorem add_task_ok (env : AddEnv) (wt nm : String) (p : Option String) (t : Task)
    (h : (add_task env wt nm p).outcome = Except.ok t) :
    t = post_add_dispatch env p := by
  unfold add_task at h
  by_cases c1 : env.repoExists = true ∧ env.repoHead = true
  · rw [if_pos c1] at h; simp at h
  · rw [if_neg c1] at h
    by_cases c2 : env.dupTask = true
    · rw [if_pos c2] at h; simp at h
    · rw [if_neg c2] at h
      by_cases c3 : worktree_repo_name_matches wt nm = false
      · rw [if_pos c3] at h; simp at h
      · rw [if_neg c3] at h
        rcases hmk : make_worktree env.fs env.wtOf env.mkdirOk false wt with e | q <;>
          rw [hmk] at h <;> dsimp only at h
        · simp at h
        · by_cases c4 : env.dbOk = false
          · rw [if_pos c4] at h; simp at h
          · rw [if_neg c4] at h
            simp only [Except.ok.injEq] at h
            exact h.symm

theorem wf_add (env : AddEnv) (wt nm : String) (p : Option String) (t : Task)
    (h : (add_task env wt nm p).outcome = Except.ok t) : WF t := by
  rw [add_task_ok env wt nm p t h]
  exact wf_post_add_dispatch env p

theorem pending_pIndex_state (t : Task) (hp : pendingMatches t)
    (h : t.pending = Pending.pIndex) :
    t.state = St.index ∨ t.state = St.cancelPending := by
  unfold pendingMatches at hp
  cases hs : t.state <;> simp_all

theorem pending_pFetch_state (t : Task) (hp : pendingMatches t)
    (h : t.pending = Pending.pFetch) :
    t.state = St.fetch ∨ t.state = St.cancelPending := by
  unfold pendingMatches at hp
  cases hs : t.state <;> simp_all

theorem pending_pCheckout_state (t : Task) (hp : pendingMatches t)
    (h : t.pending = Pending.pCheckout) :
    t.state = St.checkout ∨ t.state = St.cancelPending := by
  unfold pendingMatches at hp
  cases hs : t.state <;> simp_all

theorem pending_pMerge_state (t : Task) (hp : pendingMatches t)
    (h : t.pending = Pending.pMerge) :
    t.state = St.merge ∨ t.state = St.cancelPending := by
  unfold pendingMatches at hp
  cases hs : t.state <;> simp_all

theorem wf_step (t : Task) (e : Ev) (t2 : Task)
    (hwf : WF t) (h : step t e = some t2) : WF t2 := by
  obtain ⟨hdb, hp, htx, hpre, hfetch⟩ := hwf
  cases e with
  | cancel =>
    simp only [step, Option.some.injEq] at h
    subst h
    unfold cancel_task
    cases hs : t.state <;>
      simp_all [transition_state, WF, pendingMatches, isTerminal]
  | poll connected wtNE dl =>
    simp only [step] at h
    split_ifs at h with hc
    · simp only [Option.some.injEq] at h
      subst h
      obtain ⟨h3, h4⟩ := hpre (Or.inr (Or.inl hc.1))
      refine wf_start_index_or_transfer _ _ _ ?_ ?_ h3 h4
      · rw [hdb, hc.1]; rfl
      · unfold pendingMatches at hp; rw [hc.1] at hp; exact hp
    · simp only [Option.some.injEq] at h
      subst h
      exact ⟨hdb, hp, htx, hpre, hfetch⟩
  | indexDone ok nr dl =>
    simp only [step] at h
    split_ifs at h with hpi
    simp only [Option.some.injEq] at h
    subst h
    rcases pending_pIndex_state t hp hpi with hs | hs
    · obtain ⟨h3, h4⟩ := hpre (Or.inr (Or.inr hs))
      cases ok <;> cases dl <;>
        simp_all [index_files_done, enter_fetch, add_transfer_task,
          transition_state, transition_to_error, WF, pendingMatches, isTerminal]
    · cases ok <;> cases dl <;>
        simp_all [index_files_done, enter_fetch, add_transfer_task,
          transition_state, transition_to_error, WF, pendingMatches, isTerminal]
  | fetchDone res =>
    simp only [step] at h
    split_ifs at h with hpf
    simp only [Option.some.injEq] at h
    subst h
    have hnt : t.inDb = true := by
      rcases pending_pFetch_state t hp hpf with hs | hs <;>
        rw [hdb, hs] <;> rfl
    cases res with
    | canceled =>
      simp_all [on_repo_fetched, transition_state, WF, pendingMatches, isTerminal]
    | errored =>
      simp_all [on_repo_fetched, transition_to_error, WF, pendingMatches, isTerminal]
    | fetched found r wtNE =>
      cases found with
      | false =>
        simp_all [on_repo_fetched, transition_to_error, WF, pendingMatches, isTerminal]
      | true =>
        have hrw : on_repo_fetched (TxResult.fetched true r wtNE) t
            = start_checkout r wtNE { t with pending := Pending.pnone } := by
          simp [on_repo_fetched]
        rw [hrw]
        exact wf_start_checkout _ _ _ hnt rfl htx
  | checkoutDone ok =>
    simp only [step] at h
    split_ifs at h with hpc
    simp only [Option.some.injEq] at h
    subst h
    rcases pending_pCheckout_state t hp hpc with hs | hs <;>
      cases ok <;>
      simp_all [on_checkout_done, transition_state, transition_to_error, WF,
        pendingMatches, isTerminal]
  | mergeDone env =>
    simp only [step] at h
    split_ifs at h with hpm
    simp only [Option.some.injEq] at h
    subst h
    rcases pending_pMerge_state t hp hpm with hs | hs <;>
      rcases hr : (merge_job env t).success with _ | _ <;>
      simp_all [merge_job_done, transition_state, transition_to_error, WF,
        pendingMatches, isTerminal]

/-- Every reachable task is well-formed. -/
theorem reach_wf (t : Task) (h : Reach t) : WF t := by
  induction h with
  | added env wt nm p t h => exact wf_add env wt nm p t h
  | recover env p => exact wf_restart env p
  | evt t e t2 h1 h2 ih => exact wf_step t e t2 ih h2

/-! ## Handler facts about the DONE state -/

theorem start_checkout_ne_done (r : RepoInfo) (w : Bool) (t : Task) :
    (start_checkout r w t).state ≠ St.done := by
  unfold start_checkout start_checkout_sched transition_to_error transition_state
  split_ifs <;> simp

theorem start_index_or_transfer_ne_done (w : Bool) (dl : Option String) (t : Task) :
    (start_index_or_transfer w dl t).state ≠ St.done := by
  unfold start_index_or_transfer enter_fetch add_transfer_task transition_to_error
    transition_state
  cases w <;> cases dl <;> split_ifs <;> simp

theorem index_files_done_ne_done (ok : Bool) (nr : String) (dl : Option String) (t : Task) :
    (index_files_done ok nr dl t).state ≠ St.done := by
  unfold index_files_done enter_fetch add_transfer_task transition_to_error transition_state
  cases ok <;> cases dl <;> simp_all [apply_ite] <;> split_ifs <;> simp

theorem on_repo_fetched_ne_done (res : TxResult) (t : Task) :
    (on_repo_fetched res t).state ≠ St.done := by
  cases res with
  | canceled => simp [on_repo_fetched, transition_state]
  | errored => simp [on_repo_fetched, transition_to_error]
  | fetched found r wtNE =>
    cases found with
    | false => simp [on_repo_fetched, transition_to_error]
    | true =>
      have hrw : on_repo_fetched (TxResult.fetched true r wtNE) t
          = start_checkout r wtNE { t with pending := Pending.pnone } := by
        simp [on_repo_fetched]
      rw [hrw]
      exact start_checkout_ne_done _ _ _

theorem cancel_task_done (t : Task) (h : (cancel_task t).1.state = St.done) :
    t.state = St.done := by
  unfold cancel_task at h
  cases hs : t.state <;> rw [hs] at h <;> simp_all [transition_state]

theorem on_checkout_done_done (ok : Bool) (t : Task)
    (h : (on_checkout_done ok t).state = St.done) :
    (ok = true ∧ t.state = St.checkout) ∨ t.state = St.done := by
  unfold on_checkout_done at h
  cases ok <;> simp_all [transition_to_error, transition_state] <;>
    split_ifs at h <;> simp_all

theorem merge_job_done_done (menv : MergeEnv) (t : Task)
    (h : (merge_job_done menv t).state = St.done) :
    ((merge_job menv t).success = true ∧ t.state = St.merge) ∨ t.state = St.done := by
  unfold merge_job_done at h
  rcases hr : (merge_job menv t).success with _ | _ <;>
    simp_all [transition_to_error, transition_state] <;>
    split_ifs at h <;> simp_all

/-! ## Concrete scenarios used by witnesses and counterexamples -/

/-- Oracle record of an unencrypted repository with all store calls
succeeding. -/
def rinfoPlain : RepoInfo :=
  { encrypted := false, encVersion := 0, verifyOk := true, setPasswdOk := true }

/-- Recovery oracle leading to INDEX: repo absent, relay connected,
worktree non-empty. -/
def envIndex : RecoverEnv :=
  { repoExists := false, repoHead := false, repoInfo := rinfoPlain,
    wtNonEmpty := true, relayConnected := true, dl := none }

/-- A recovered task sitting in INDEX with the index job in flight. -/
def taskIndex : Task := restart_task envIndex none

/-- The INDEX task after cancellation: CANCEL_PENDING with the index job
still in flight. -/
def taskIndexCP : Task := (cancel_task taskIndex).1

/-- Recovery oracle leading to CONNECT: repo absent, relay not connected. -/
def envConnect : RecoverEnv :=
  { repoExists := false, repoHead := false, repoInfo := rinfoPlain,
    wtNonEmpty := false, relayConnected := false, dl := none }

/-- A recovered task sitting in CONNECT. -/
def taskConnect : Task := restart_task envConnect none

/-- The CONNECT task after cancellation: CANCELED. -/
def taskCanceled : Task := (cancel_task taskConnect).1

/-- Recovery oracle for a repo that already exists with a head set: the
task goes straight to DONE. -/
def envDone : RecoverEnv :=
  { repoExists := true, repoHead := true, repoInfo := rinfoPlain,
    wtNonEmpty := false, relayConnected := true, dl := none }

/-- A recovered task that went straight to DONE. -/
def taskDone : Task := restart_task envDone none

/-- Recovery oracle leading to FETCH: repo absent, relay connected, empty
worktree, download enqueued as transfer "tx1". -/
def envFetch : RecoverEnv :=
  { repoExists := false, repoHead := false, repoInfo := rinfoPlain,
    wtNonEmpty := false, relayConnected := true, dl := some "tx1" }

/-- A recovered task sitting in FETCH. -/
def taskFetch : Task := restart_task envFetch none

/-- Recovery oracle leading to MERGE: repo fetched but head unset, worktree
non-empty, so recovery schedules the merge job. -/
def envMerge : RecoverEnv :=
  { repoExists := true, repoHead := false, repoInfo := rinfoPlain,
    wtNonEmpty := true, relayConnected := true, dl := none }

/-- A recovered task sitting in MERGE with the merge job in flight and a
zero-valued root id. -/
def taskMerge : Task := restart_task envMerge none

/-- The MERGE task after cancellation: CANCEL_PENDING with the merge job
still in flight. -/
def taskMergeCP : Task := (cancel_task taskMerge).1

/-- Merge-job oracle where every external call succeeds and the history
does not contain the indexed tree (real three-way merge, successful). -/
def menvOk : MergeEnv :=
  { indexOk := true, newRoot := "r1", branchFound := true, headFound := true,
    fastForward := false, ffOk := true, mergeOk := true }

/-- Merge-job oracle where the late worktree indexing fails. -/
def menvFail : MergeEnv :=
  { indexOk := false, newRoot := "", branchFound := true, headFound := true,
    fastForward := false, ffOk := true, mergeOk := true }

/-! ## Claim C1 -/

/-- C1 (counterexample).  The claim states that once a task is in
CANCEL_PENDING or CANCELED no later transition can move it to DONE or
ERROR, and in particular that a job completion firing in CANCEL_PENDING
always finalizes the task to CANCELED regardless of the job's outcome.
This is false on the code: `index_files_done` checks `aux->success`
before it checks for CANCEL_PENDING, so a failed index job completing on
a CANCEL_PENDING task transitions it to ERROR(INDEX).  The concrete run:
recovery puts a task in INDEX, cancellation moves it to CANCEL_PENDING,
and the failed index completion then lands in ERROR. -/
theorem claim_C1_counterexample :
    ¬ (∀ t : Task, Reach t →
        (t.state = St.cancelPending ∨ t.state = St.canceled) →
        ∀ (e : Ev) (t2 : Task), step t e = some t2 →
        t2.state ≠ St.done ∧ t2.state ≠ St.error) := by
  intro hclaim
  have hreach : Reach taskIndexCP :=
    Reach.evt taskIndex Ev.cancel taskIndexCP (Reach.recover envIndex none) rfl
  have h2 := hclaim taskIndexCP hreach (Or.inl rfl)
    (Ev.indexDone false "" none) (index_files_done false "" none taskIndexCP) rfl
  exact h2.2 (by decide)

/-- C1 (amended).  CANCELED is absorbing: no event changes a reachable
CANCELED task.  CANCEL_PENDING absorbs DONE but not ERROR: no single
transition out of CANCEL_PENDING reaches DONE (successful index, checkout
and merge completions finalize to CANCELED), but a failed completion
transitions to ERROR, and a successful transfer completion re-enters the
checkout/merge pipeline. -/
theorem claim_C1_amended (t : Task) (hr : Reach t) (e : Ev) (t2 : Task)
    (h : step t e = some t2) :
    (t.state = St.canceled → t2 = t) ∧
    (t.state = St.cancelPending → t2.state ≠ St.done) := by
  obtain ⟨hdb, hp, htx, hpre, hfetch⟩ := reach_wf t hr
  constructor
  · intro hs
    have hpn : t.pending = Pending.pnone := by
      unfold pendingMatches at hp; rw [hs] at hp; exact hp
    cases e with
    | cancel =>
      simp only [step, Option.some.injEq] at h
      subst h
      simp [cancel_task, hs]
    | poll connected wtNE dl =>
      simp only [step] at h
      split_ifs at h with hc
      · exact absurd hc.1 (by rw [hs]; decide)
      · simp only [Option.some.injEq] at h
        exact h.symm
    | indexDone ok nr dl =>
      simp only [step] at h
      split_ifs at h with hc
      rw [hpn] at hc
      exact absurd hc (by decide)
    | fetchDone res =>
      simp only [step] at h
      split_ifs at h with hc
      rw [hpn] at hc
      exact absurd hc (by decide)
    | checkoutDone ok =>
      simp only [step] at h
      split_ifs at h with hc
      rw [hpn] at hc
      exact absurd hc (by decide)
    | mergeDone menv =>
      simp only [step] at h
      split_ifs at h with hc
      rw [hpn] at hc
      exact absurd hc (by decide)
  · intro hs
    cases e with
    | cancel =>
      simp only [step, Option.some.injEq] at h
      subst h
      simp [cancel_task, hs]
    | poll connected wtNE dl =>
      simp only [step] at h
      split_ifs at h with hc
      · exact absurd hc.1 (by rw [hs]; decide)
      · simp only [Option.some.injEq] at h
        subst h
        rw [hs]; decide
    | indexDone ok nr dl =>
      simp only [step] at h
      split_ifs at h with hc
      simp only [Option.some.injEq] at h
      subst h
      exact index_files_done_ne_done ok nr dl t
    | fetchDone res =>
      simp only [step] at h
      split_ifs at h with hc
      simp only [Option.some.injEq] at h
      subst h
      exact on_repo_fetched_ne_done res t
    | checkoutDone ok =>
      simp only [step] at h
      split_ifs at h with hc
      simp only [Option.some.injEq] at h
      subst h
      intro hd
      rcases on_checkout_done_done ok t hd with ⟨h1, h2⟩ | h2 <;>
        rw [h2] at hs <;> exact absurd hs (by decide)
    | mergeDone menv =>
      simp only [step] at h
      split_ifs at h with hc
      simp only [Option.some.injEq] at h
      subst h
      intro hd
      rcases merge_job_done_done menv t hd with ⟨h1, h2⟩ | h2 <;>
        rw [h2] at hs <;> exact absurd hs (by decide)

/-- C1 (witness): the amended theorem applied to the concrete reachable
CANCELED task hit by a further cancel event. -/
theorem claim_C1_amended_witness :
    (taskCanceled.state = St.canceled → taskCanceled = taskCanceled) ∧
    (taskCanceled.state = St.cancelPending → taskCanceled.state ≠ St.done) :=
  claim_C1_amended taskCanceled
    (Reach.evt taskConnect Ev.cancel taskCanceled (Reach.recover envConnect none) rfl)
    Ev.cancel taskCanceled rfl

/-! ## Claim C2 -/

theorem add_task_ok_db (env : AddEnv) (wt nm : String) (p : Option String) (t : Task)
    (h : (add_task env wt nm p).outcome = Except.ok t) :
    (add_task env wt nm p).dbWritten = true := by
  unfold add_task at h ⊢
  by_cases c1 : env.repoExists = true ∧ env.repoHead = true
  · rw [if_pos c1] at h; simp at h
  · rw [if_neg c1] at h ⊢
    by_cases c2 : env.dupTask = true
    · rw [if_pos c2] at h; simp at h
    · rw [if_neg c2] at h ⊢
      by_cases c3 : worktree_repo_name_matches wt nm = false
      · rw [if_pos c3] at h; simp at h
      · rw [if_neg c3] at h ⊢
        rcases hmk : make_worktree env.fs env.wtOf env.mkdirOk false wt with e | q
        · rw [hmk] at h
          simp at h
        · rw [hmk] at h
          dsimp only at h ⊢
          split_ifs at h ⊢ with c4
          rfl

/-- C2.  Durable-state invariant: every reachable task has its CloneTasks
row present iff its state is non-terminal; every transition entering DONE,
ERROR or CANCELED deletes the row; and a successful admission has written
the row (before the dispatch that moves the task out of INIT). -/
theorem claim_C2 :
    (∀ t : Task, Reach t → (t.inDb = true ↔ isTerminal t.state = false)) ∧
    (∀ (t : Task) (s : St), isTerminal s = true → (transition_state t s).inDb = false) ∧
    (∀ (t : Task) (e : Err), (transition_to_error t e).inDb = false) ∧
    (∀ (env : AddEnv) (wt nm : String) (p : Option String) (t : Task),
      (add_task env wt nm p).outcome = Except.ok t →
      (add_task env wt nm p).dbWritten = true) := by
  refine ⟨?_, ?_, ?_, ?_⟩
  · intro t hr
    have hdb := (reach_wf t hr).1
    rw [hdb]
    cases isTerminal t.state <;> simp
  · intro t s hs
    unfold transition_state
    split_ifs with hc
    · rfl
    · exfalso
      cases s <;> simp_all [isTerminal]
  · intro t e
    rfl
  · exact add_task_ok_db

/-- C2 (witness): the invariant evaluated on the concrete recovered INDEX
task. -/
theorem claim_C2_witness :
    taskIndex.inDb = true ↔ isTerminal taskIndex.state = false :=
  claim_C2.1 taskIndex (Reach.recover envIndex none)

/-! ## Claim C3 -/

/-- C3 (counterexample).  The claim states that DONE is entered only by a
successful checkout or merge completion, on every event sequence including
startup recovery.  This is false: `restart_task` transitions a recovered
task directly to DONE when the repository already exists with its head
set, without any checkout or merge completion. -/
theorem claim_C3_counterexample :
    ¬ ((∀ (env : RecoverEnv) (p : Option String), (restart_task env p).state ≠ St.done) ∧
       (∀ (t : Task) (e : Ev) (t2 : Task), step t e = some t2 → t2.state = St.done →
         (e = Ev.checkoutDone true ∧ t.state = St.checkout) ∨
         (∃ menv, e = Ev.mergeDone menv ∧ (merge_job menv t).success = true ∧
           t.state = St.merge))) := by
  intro hclaim
  exact hclaim.1 envDone none (by decide)

/-- C3 (amended).  DONE is entered only by a successful checkout
completion observed in CHECKOUT, a successful merge completion observed in
MERGE, or directly at startup recovery when the repository already exists
with its head set; admission never yields DONE, and every step entering
DONE from a non-DONE state is one of the two completions. -/
theorem claim_C3_amended :
    (∀ (env : RecoverEnv) (p : Option String),
      (restart_task env p).state = St.done →
      env.repoExists = true ∧ env.repoHead = true) ∧
    (∀ (env : AddEnv) (wt nm : String) (p : Option String) (t : Task),
      (add_task env wt nm p).outcome = Except.ok t → t.state ≠ St.done) ∧
    (∀ (t : Task) (e : Ev) (t2 : Task), step t e = some t2 → t2.state = St.done →
      t.state = St.done ∨
      (e = Ev.checkoutDone true ∧ t.state = St.checkout) ∨
      (∃ menv, e = Ev.mergeDone menv ∧ (merge_job menv t).success = true ∧
        t.state = St.merge)) := by
  refine ⟨?_, ?_, ?_⟩
  · intro env p hdone
    unfold restart_task at hdone
    split_ifs at hdone with h1 h2 h3
    · exact ⟨h1, h2⟩
    · exact absurd hdone (start_checkout_ne_done _ _ _)
    · exact absurd hdone (by simp [transition_state])
    · exact absurd hdone (start_index_or_transfer_ne_done _ _ _)
  · intro env wt nm p t h
    rw [add_task_ok env wt nm p t h]
    unfold post_add_dispatch
    split_ifs with d1 d2
    · exact start_checkout_ne_done _ _ _
    · simp [transition_state]
    · exact start_index_or_transfer_ne_done _ _ _
  · intro t e t2 h hdone
    cases e with
    | cancel =>
      simp only [step, Option.some.injEq] at h
      subst h
      exact Or.inl (cancel_task_done t hdone)
    | poll connected wtNE dl =>
      simp only [step] at h
      split_ifs at h with hc <;> simp only [Option.some.injEq] at h <;> subst h
      · exact absurd hdone (start_index_or_transfer_ne_done _ _ _)
      · exact Or.inl hdone
    | indexDone ok nr dl =>
      simp only [step] at h
      split_ifs at h with hc
      simp only [Option.some.injEq] at h
      subst h
      exact absurd hdone (index_files_done_ne_done _ _ _ _)
    | fetchDone res =>
      simp only [step] at h
      split_ifs at h with hc
      simp only [Option.some.injEq] at h
      subst h
      exact absurd hdone (on_repo_fetched_ne_done _ _)
    | checkoutDone ok =>
      simp only [step] at h
      split_ifs at h with hc
      simp only [Option.some.injEq] at h
      subst h
      rcases on_checkout_done_done ok t hdone with ⟨h1, h2⟩ | h2
      · exact Or.inr (Or.inl ⟨by rw [h1], h2⟩)
      · exact Or.inl h2
    | mergeDone menv =>
      simp only [step] at h
      split_ifs at h with hc
      simp only [Option.some.injEq] at h
      subst h
      rcases merge_job_done_done menv t hdone with ⟨h1, h2⟩ | h2
      · exact Or.inr (Or.inr ⟨menv, rfl, h1, h2⟩)
      · exact Or.inl h2

/-- C3 (witness): the amended theorem's recovery clause evaluated on the
concrete recovery environment that jumps straight to DONE. -/
theorem claim_C3_amended_witness :
    envDone.repoExists = true ∧ envDone.repoHead = true :=
  claim_C3_amended.1 envDone none (by decide)

/-! ## Claim C4 -/

/-- Concrete admission environment whose oracles all succeed: repo absent,
no duplicate task, empty filesystem, db writable, relay connected. -/
def envAddOk : AddEnv :=
  { repoExists := false, repoHead := false, dupTask := false,
    fs := fun _ => PathStat.notExist, wtOf := fun _ => false,
    mkdirOk := true, dbOk := true, repoInfo := rinfoPlain,
    wtNonEmpty := false, relayConnected := true, dl := some "tx2" }

/-- C4 (counterexample).  The claim states that admission passes the name
check exactly when the basename of the requested worktree is a byte-prefix
of `repo_name`.  The code checks the opposite direction: `repo_name` must
be a byte-prefix of the basename (`strncmp (base, repo_name, name_len)`
with `base_len >= name_len`).  Concretely, with worktree "ab" and
repo_name "abc" the basename "ab" is a byte-prefix of "abc", so the claim
says admission passes the name check, yet `add_task` fails with the
invalid-local-directory-name error (and creates no directory and writes no
row). -/
theorem claim_C4_counterexample :
    List.isPrefixOf (path_get_basename "ab").data ("abc" : String).data = true ∧
    (add_task envAddOk "ab" "abc" none).outcome = Except.error AddErr.invalidDirName ∧
    (add_task envAddOk "ab" "abc" none).dirCreated = false ∧
    (add_task envAddOk "ab" "abc" none).dbWritten = false :=
  ⟨by decide, rfl, rfl, rfl⟩

/-- C4 (amended).  The name check passes exactly when `repo_name` is a
byte-prefix of the basename of the requested worktree path (the converse
of the claimed direction); when it fails and the earlier
repo-exists/duplicate checks pass, `add_task` fails with the
invalid-local-directory-name error, creating no directory and writing no
durable row. -/
theorem claim_C4_amended (env : AddEnv) (wt nm : String) (p : Option String) :
    (worktree_repo_name_matches wt nm = true ↔
      List.isPrefixOf nm.data (path_get_basename wt).data = true) ∧
    (¬(env.repoExists = true ∧ env.repoHead = true) → env.dupTask ≠ true →
      worktree_repo_name_matches wt nm = false →
      add_task env wt nm p =
        { outcome := Except.error AddErr.invalidDirName,
          dirCreated := false, dbWritten := false }) := by
  constructor
  · unfold worktree_repo_name_matches
    dsimp only
    split_ifs with hlen
    · simp only [Bool.false_eq_true, false_iff]
      intro hpre
      have hle : nm.data.length ≤ (path_get_basename wt).data.length :=
        (List.isPrefixOf_iff_prefix.mp hpre).length_le
      have : (path_get_basename wt).length < nm.length := hlen
      have e1 : nm.length = nm.data.length := rfl
      have e2 : (path_get_basename wt).length = (path_get_basename wt).data.length := rfl
      omega
    · exact Iff.rfl
  · intro h1 h2 h3
    unfold add_task
    rw [if_neg h1, if_neg h2, if_pos h3]

/-- C4 (witness): the amended theorem's failure clause evaluated on the
concrete rejected admission. -/
theorem claim_C4_amended_witness :
    add_task envAddOk "ab" "abc" none =
      { outcome := Except.error AddErr.invalidDirName,
        dirCreated := false, dbWritten := false } :=
  (claim_C4_amended envAddOk "ab" "abc" none).2 (by decide) (by decide) (by decide)

/-! ## Claim C5 -/

/-- C5 (counterexample).  The claim states that `cancel_task` is a no-op
returning success when the task is in CANCEL_PENDING or terminal.  For
terminal states the code takes the default switch branch and returns -1,
not success: cancelling the recovered DONE task returns -1. -/
theorem claim_C5_counterexample :
    ¬ (∀ t : Task, Reach t → isTerminal t.state = true → cancel_task t = (t, 0)) := by
  intro hclaim
  have h := hclaim taskDone (Reach.recover envDone none) (by decide)
  have h2 : (cancel_task taskDone).2 = -1 := by decide
  rw [h] at h2
  exact absurd h2 (by decide)

/-- C5 (amended).  `cancel_task` is a no-op returning success only for
CANCEL_PENDING; for terminal states (DONE, ERROR, CANCELED) it is a no-op
returning -1.  Otherwise it transitions INIT/CONNECT directly to CANCELED,
FETCH to CANCEL_PENDING after requesting cancellation of the transfer,
and INDEX/CHECKOUT/MERGE to CANCEL_PENDING, returning success. -/
theorem claim_C5_amended (t : Task) :
    (t.state = St.cancelPending → cancel_task t = (t, 0)) ∧
    (isTerminal t.state = true → cancel_task t = (t, -1)) ∧
    ((t.state = St.init ∨ t.state = St.connect) →
      (cancel_task t).1.state = St.canceled ∧ (cancel_task t).2 = 0) ∧
    (t.state = St.fetch →
      (cancel_task t).1.state = St.cancelPending ∧
      (cancel_task t).1.txCancelRequested = true ∧ (cancel_task t).2 = 0) ∧
    ((t.state = St.index ∨ t.state = St.checkout ∨ t.state = St.merge) →
      (cancel_task t).1.state = St.cancelPending ∧ (cancel_task t).2 = 0) := by
  cases hs : t.state <;>
    simp [cancel_task, transition_state, isTerminal, hs]

/-- C5 (witness): the amended theorem's FETCH clause evaluated on the
concrete recovered FETCH task. -/
theorem claim_C5_amended_witness :
    (cancel_task taskFetch).1.state = St.cancelPending ∧
    (cancel_task taskFetch).1.txCancelRequested = true ∧
    (cancel_task taskFetch).2 = 0 :=
  (claim_C5_amended taskFetch).2.2.2.1 (by decide)

/-! ## Claim C6 -/

/-- Oracle record of an encrypted version-0 repository whose passphrase
would fail verification. -/
def rinfoEncV0 : RepoInfo :=
  { encrypted := true, encVersion := 0, verifyOk := false, setPasswdOk := true }

/-- Oracle record of an encrypted version-1 repository whose passphrase
fails verification. -/
def rinfoEncBad : RepoInfo :=
  { encrypted := true, encVersion := 1, verifyOk := false, setPasswdOk := true }

/-- A task holding a passphrase, as seen by `start_checkout` after a
fetch completion. -/
def taskWithPasswd : Task :=
  { state := St.fetch, passwd := some "pw", txId := some "tx3",
    inDb := true, enteredFetch := true }

/-- C6 (counterexample).  The claim states that for every encrypted
repository the passphrase is verified before any checkout or merge is
scheduled, and a failing passphrase yields ERROR(PASSWORD).  The code
guards the verification with `enc_version >= 1`: for an encrypted
version-0 repository a passphrase that would fail verification is not
verified at all, and `start_checkout` proceeds to schedule the merge. -/
theorem claim_C6_counterexample :
    ¬ (∀ (r : RepoInfo) (w : Bool) (t : Task), r.encrypted = true →
        (t.passwd = none ∨ r.verifyOk = false) →
        (start_checkout r w t).state = St.error ∧
        (start_checkout r w t).error = Err.password) := by
  intro hclaim
  have h := hclaim rinfoEncV0 true taskWithPasswd rfl (Or.inr rfl)
  exact absurd h.1 (by decide)

/-- C6 (amended).  For an encrypted repository: a missing passphrase
yields ERROR(PASSWORD) and schedules nothing; a supplied passphrase that
fails verification yields ERROR(PASSWORD) and schedules nothing provided
`enc_version >= 1`; for `enc_version = 0` the verification is skipped and
the checkout or merge is scheduled anyway. -/
theorem claim_C6_amended (r : RepoInfo) (w : Bool) (t : Task)
    (henc : r.encrypted = true) :
    (t.passwd = none →
      (start_checkout r w t).state = St.error ∧
      (start_checkout r w t).error = Err.password ∧
      (start_checkout r w t).pending = t.pending) ∧
    (t.passwd ≠ none → 1 ≤ r.encVersion → r.verifyOk = false →
      (start_checkout r w t).state = St.error ∧
      (start_checkout r w t).error = Err.password ∧
      (start_checkout r w t).pending = t.pending) ∧
    (t.passwd ≠ none → r.encVersion = 0 → r.setPasswdOk = true →
      (start_checkout r w t).state = (if w = true then St.merge else St.checkout)) := by
  refine ⟨?_, ?_, ?_⟩
  · intro hp
    unfold start_checkout
    rw [if_neg (by simp [hp]), if_pos henc]
    simp [transition_to_error]
  · intro hp hv hok
    unfold start_checkout
    rw [if_pos ⟨henc, hp⟩, if_pos ⟨hv, hok⟩]
    simp [transition_to_error]
  · intro hp hv hok
    unfold start_checkout
    rw [if_pos ⟨henc, hp⟩, if_neg (by simp [hv]), if_neg (by simp [hok])]
    unfold start_checkout_sched
    cases w <;> simp [transition_state]

/-- C6 (witness): the amended theorem's failed-verification clause
evaluated on the version-1 encrypted repository. -/
theorem claim_C6_amended_witness :
    (start_checkout rinfoEncBad true taskWithPasswd).state = St.error ∧
    (start_checkout rinfoEncBad true taskWithPasswd).error = Err.password ∧
    (start_checkout rinfoEncBad true taskWithPasswd).pending = taskWithPasswd.pending :=
  (claim_C6_amended rinfoEncBad true taskWithPasswd rfl).2.1 (by decide) (by decide) rfl

/-! ## Claim C7 -/

theorem try_worktree_from_shape (fs : String → PathStat) (wt : String)
    (cnt fuel : Nat) (r : String)
    (h : try_worktree_from fs wt cnt fuel = some r) :
    ∃ c, cnt ≤ c ∧ r = wt ++ "-" ++ toString c := by
  induction fuel generalizing cnt with
  | zero => simp [try_worktree_from] at h
  | succ n ih =>
    unfold try_worktree_from at h
    dsimp only at h
    split_ifs at h with h1 h2
    · simp only [Option.some.injEq] at h
      exact ⟨cnt, Nat.le_refl _, h.symm⟩
    · obtain ⟨c, hc, hr⟩ := ih (cnt + 1) h
      exact ⟨c, Nat.le_trans (Nat.le_succ cnt) hc, hr⟩

theorem make_worktree_dry_shape (fs : String → PathStat) (wtOf : String → Bool)
    (mk : Bool) (w r : String) (c : Bool)
    (h : make_worktree fs wtOf mk true w = Except.ok (r, c)) :
    c = false ∧
    (r = stripSeps w ∨ ∃ k, 1 ≤ k ∧ r = stripSeps w ++ "-" ++ toString k) := by
  revert h
  unfold make_worktree
  dsimp only
  rcases hfs : fs (stripSeps w) with _ | _ | _
  · intro h
    simp at h
    exact ⟨by simp_all, Or.inl (by simp_all)⟩
  · intro h
    simp at h
    rcases htry : try_worktree fs (stripSeps w) with _ | s <;> rw [htry] at h
    · simp at h
    · simp at h
      obtain ⟨k, hk, hs⟩ := try_worktree_from_shape fs (stripSeps w) 1 4294967295 s htry
      exact ⟨by simp_all, Or.inr ⟨k, hk, by simp_all⟩⟩
  · intro h
    by_cases hwt : wtOf (stripSeps w) = true
    · simp [hwt] at h
      rcases htry : try_worktree fs (stripSeps w) with _ | s <;> rw [htry] at h
      · simp at h
      · simp at h
        obtain ⟨k, hk, hs⟩ := try_worktree_from_shape fs (stripSeps w) 1 4294967295 s htry
        exact ⟨by simp_all, Or.inr ⟨k, hk, by simp_all⟩⟩
    · simp [hwt] at h
      exact ⟨by simp_all, Or.inl (by simp_all)⟩

/-- Filesystem oracle of an empty filesystem. -/
def fsEmpty : String → PathStat := fun _ => PathStat.notExist

/-- Worktree-ownership oracle with no known repos or tasks. -/
def wtOfNone : String → Bool := fun _ => false

/-- C7 (counterexample).  The claim states that `gen_default_worktree`
applied twice in sequence with no other mutation of the filesystem or
task set returns two distinct paths, name and name-1.  The function is a
pure dry run: with the filesystem and task set unchanged, the second
application is the same function application as the first, and on an
empty filesystem both return "p/n"; the second application does not
return the claimed distinct "p/n-1". -/
theorem claim_C7_counterexample :
    (gen_default_worktree fsEmpty wtOfNone "p" "n").1 = "p/n" ∧
    (gen_default_worktree fsEmpty wtOfNone "p" "n").1 ≠ "p/n" ++ "-1" ∧
    (gen_default_worktree fsEmpty wtOfNone "p" "n").2 = false :=
  ⟨rfl, by decide, rfl⟩

/-- C7 (amended).  `gen_default_worktree` always returns a path and never
creates a directory; the result is `parent/repo_name`, possibly with
trailing separators stripped, or a `-N` variant of it.  The function is
deterministic in its oracles, so applying it N times with no other
mutation returns the same path N times; the distinct name, name-1,
name-2 sequence arises only when each returned directory is materialized
between calls. -/
theorem claim_C7_amended (fs : String → PathStat) (wtOf : String → Bool)
    (parent name : String) :
    (gen_default_worktree fs wtOf parent name).2 = false ∧
    ((gen_default_worktree fs wtOf parent name).1 = g_build_filename parent name ∨
     (gen_default_worktree fs wtOf parent name).1 = stripSeps (g_build_filename parent name) ∨
     ∃ k, 1 ≤ k ∧ (gen_default_worktree fs wtOf parent name).1 =
       stripSeps (g_build_filename parent name) ++ "-" ++ toString k) := by
  unfold gen_default_worktree
  dsimp only
  rcases hmk : make_worktree fs wtOf true true (g_build_filename parent name) with e | q
  · exact ⟨rfl, Or.inl rfl⟩
  · rcases q with ⟨r, c⟩
    obtain ⟨hc, hshape⟩ :=
      make_worktree_dry_shape fs wtOf true (g_build_filename parent name) r c hmk
    refine ⟨hc, ?_⟩
    rcases hshape with hr | ⟨k, hk, hr⟩
    · exact Or.inr (Or.inl hr)
    · exact Or.inr (Or.inr ⟨k, hk, hr⟩)

/-! ## Claim C8 -/

/-- C8 (counterexample).  The claim states that a merge completion firing
in CANCEL_PENDING finalizes the task to CANCELED and discards any partial
result, updating no repository metadata such as the worktree pointer.
The code calls `seaf_repo_manager_set_repo_worktree` on every successful
merge completion before checking for CANCEL_PENDING, so the repository
worktree pointer is updated even when the completion is observed in
CANCEL_PENDING.  The concrete run: recovery schedules a merge, the task
is cancelled into CANCEL_PENDING, and the successful merge completion
sets the worktree pointer (and the repo head) before finalizing to
CANCELED. -/
theorem claim_C8_counterexample :
    ¬ (∀ t : Task, Reach t → t.state = St.cancelPending →
        ∀ (menv : MergeEnv) (t2 : Task), step t (Ev.mergeDone menv) = some t2 →
        t2.state = St.canceled ∧ t2.repoWorktreeSet = t.repoWorktreeSet) := by
  intro hclaim
  have hr : Reach taskMergeCP :=
    Reach.evt taskMerge Ev.cancel taskMergeCP (Reach.recover envMerge none) rfl
  have h := hclaim taskMergeCP hr rfl menvOk (merge_job_done menvOk taskMergeCP) rfl
  exact absurd h.2 (by decide)

/-- C8 (amended).  A completion observed in CANCEL_PENDING finalizes the
task to CANCELED only when the job succeeded, and a successful merge
completion still applies the merge's results (the repository worktree
pointer is set, and the job already set the repo head) before the task is
finalized; a failed merge, index or checkout completion observed in
CANCEL_PENDING transitions the task to ERROR instead. -/
theorem claim_C8_amended (t : Task) (menv : MergeEnv) (ok : Bool) (nr : String)
    (dl : Option String) (hs : t.state = St.cancelPending) :
    ((merge_job menv t).success = true →
      (merge_job_done menv t).state = St.canceled ∧
      (merge_job_done menv t).repoWorktreeSet = true) ∧
    ((merge_job menv t).success = false →
      (merge_job_done menv t).state = St.error ∧
      (merge_job_done menv t).error = Err.merge) ∧
    (ok = true → (index_files_done ok nr dl t).state = St.canceled) ∧
    (ok = false →
      (index_files_done ok nr dl t).state = St.error ∧
      (index_files_done ok nr dl t).error = Err.index) ∧
    ((on_checkout_done true t).state = St.canceled) ∧
    ((on_checkout_done false t).state = St.error ∧
      (on_checkout_done false t).error = Err.checkout) := by
  refine ⟨?_, ?_, ?_, ?_, ?_, ?_⟩
  · intro hsu
    unfold merge_job_done
    simp [hsu, hs, transition_state]
  · intro hsu
    unfold merge_job_done
    simp [hsu, transition_to_error]
  · intro hok
    unfold index_files_done
    simp [hok, hs, transition_state]
  · intro hok
    unfold index_files_done
    simp [hok, transition_to_error]
  · unfold on_checkout_done
    simp [hs, transition_state]
  · unfold on_checkout_done
    simp [transition_to_error]

/-- C8 (witness): the amended theorem's successful-merge clause evaluated
on the concrete cancelled merge task. -/
theorem claim_C8_amended_witness :
    (merge_job_done menvOk taskMergeCP).state = St.canceled ∧
    (merge_job_done menvOk taskMergeCP).repoWorktreeSet = true :=
  (claim_C8_amended taskMergeCP menvOk true "" none rfl).1 (by decide)

/-! ## Claim C9 -/

/-- C9.  For every reachable task, FETCH implies `tx_id` is set, and
`tx_id` is set exactly when the task has entered FETCH at least once (the
task itself is destroyed on removal, so "not removed" is implicit in the
task's existence). -/
theorem claim_C9 (t : Task) (hr : Reach t) :
    (t.state = St.fetch → t.txId ≠ none) ∧
    (t.txId ≠ none ↔ t.enteredFetch = true) := by
  obtain ⟨hdb, hp, htx, hpre, hfetch⟩ := reach_wf t hr
  constructor
  · intro hs hn
    have := hfetch hs
    rw [hn] at this
    simp at this
  · cases hx : t.txId <;> simp_all

/-- C9 (witness): the invariant evaluated on the concrete recovered FETCH
task. -/
theorem claim_C9_witness :
    (taskFetch.state = St.fetch → taskFetch.txId ≠ none) ∧
    (taskFetch.txId ≠ none ↔ taskFetch.enteredFetch = true) :=
  claim_C9 taskFetch (Reach.recover envFetch none)

/-! ## Claim C10 -/

theorem merge_job_done_rootId (menv : MergeEnv) (t : Task) :
    (merge_job_done menv t).rootId = (merge_job menv t).rootId := by
  unfold merge_job_done
  dsimp only
  split_ifs <;> rfl

/-- C10.  When the merge job runs for a task whose `root_id` is still
zero-valued, it first indexes the current worktree: if that indexing
fails, the job reports failure and the completion transitions the task to
ERROR with error kind MERGE (not INDEX); if it succeeds, the root id used
by the merge, and stored back on the task, is the freshly indexed hash. -/
theorem claim_C10 (t : Task) (menv : MergeEnv) (hs : t.state = St.merge)
    (hz : t.rootId = "") :
    (menv.indexOk = false →
      (merge_job_done menv t).state = St.error ∧
      (merge_job_done menv t).error = Err.merge) ∧
    (menv.indexOk = true →
      (merge_job menv t).rootId = menv.newRoot ∧
      (merge_job_done menv t).rootId = menv.newRoot) := by
  constructor
  · intro hio
    have hsu : (merge_job menv t).success = false := by
      unfold merge_job
      rw [if_pos ⟨hz, hio⟩]
    unfold merge_job_done
    simp [hsu, transition_to_error]
  · intro hio
    have hroot : (merge_job menv t).rootId = menv.newRoot := by
      unfold merge_job
      rw [if_neg (by simp [hio])]
      dsimp only
      rw [if_pos hz]
      split_ifs <;> rfl
    refine ⟨hroot, ?_⟩
    rw [merge_job_done_rootId menv t, hroot]

/-- C10 (witness): the indexing-failure clause evaluated on the concrete
recovered MERGE task with a zero-valued root id. -/
theorem claim_C10_witness :
    (merge_job_done menvFail taskMerge).state = St.error ∧
    (merge_job_done menvFail taskMerge).error = Err.merge :=
  (claim_C10 taskMerge menvFail rfl rfl).1 rfl

end CloneMgr
